import Mathlib

/-!
# Verification of the s3usage pipeline

Shallow embedding of the s3usage repository's core:
* `pkg/models`   — `BucketUsage`, `MonthlyBucketAverage` records,
* `pkg/db`       — the SQLite-backed store (`StoreBucketUsage`,
  `GetBucketUsage`, `CalculateMonthlyAverages`, `PruneOldData`),
* `pkg/ceph`     — the admin-API client (`GetBucketUsage`,
  `GetAllBucketsUsage`) and JSON decoding of `BucketStats`.

Timestamps are modelled as integers counting UTC seconds from
00:00:00 of January 1 of year 0 of the proleptic Gregorian calendar
(the same calendar Go's `time` package implements; only differences
of instants matter below, so the choice of origin is immaterial).
`sql.DB` state is modelled as a `Store` value; queries and mutation
statements become pure functions on it.  Failures of individual
database statements are modelled by an explicit failure-point
parameter; a value `none` is the run in which every statement
succeeds.  SQLite's `AVG` over an integer column is modelled as the
exact rational mean.
-/

namespace S3Usage

/-! ## Calendar arithmetic (Go `time` package semantics)

`time.Date(year, month, 1, 0, 0, 0, 0, time.UTC)` normalises the month
by floor division into the year, then counts days using a cumulative
days-before-month table with a leap-day adjustment from March onwards;
`AddDate(0, 1, 0)` is `time.Date` applied to `month+1`.  Lean's `Int`
`/` and `%` are Euclidean, which for the positive divisor 12 agrees
with the floor-division normalisation Go performs. -/

/-- Leap-year test of the proleptic Gregorian calendar, as in Go's
`time.isLeap`. -/
def isLeap (y : Int) : Bool :=
  y % 4 == 0 && (y % 100 != 0 || y % 400 == 0)

/-- Days from January 1 of year 0 to January 1 of year `y`
(negative when `y < 0`). -/
def daysBeforeYear (y : Int) : Int :=
  365 * y + ((y + 3) / 4 - (y + 99) / 100 + (y + 399) / 400)

/-- Cumulative days before 1-based month `m0 + 1` in a non-leap year,
Go's `daysBefore` table. -/
def daysBeforeArr (m0 : Nat) : Int :=
  match m0 with
  | 0 => 0
  | 1 => 31
  | 2 => 59
  | 3 => 90
  | 4 => 120
  | 5 => 151
  | 6 => 181
  | 7 => 212
  | 8 => 243
  | 9 => 273
  | 10 => 304
  | _ => 334

/-- UTC seconds at 00:00:00 of day 1 of the month with linear index
`idx` (index `12*y + (m-1)` is month `m` of year `y`). -/
def monthStartOfIdx (idx : Int) : Int :=
  86400 * (daysBeforeYear (idx / 12) + daysBeforeArr (idx % 12).toNat +
    (if isLeap (idx / 12) && decide (2 ≤ (idx % 12).toNat) then 1 else 0))

/-- Linear month index of `(year, month)`; `time.Date`'s month
normalisation makes two pairs with the same index denote the same
instant. -/
def monthIdx (year month : Int) : Int := 12 * year + (month - 1)

/-- UTC seconds at the instant `time.Date(year, month, 1, 0, 0, 0, 0,
time.UTC)` (day 1, 00:00:00 of the month, after normalisation). -/
def monthStartSec (year month : Int) : Int :=
  monthStartOfIdx (monthIdx year month)

/-- UTC seconds at the last second of the month:
`startDate.AddDate(0, 1, 0).Add(-time.Second)`. -/
def monthEndSec (year month : Int) : Int :=
  monthStartSec year (month + 1) - 1

theorem daysBeforeYear_succ (y : Int) :
    daysBeforeYear (y + 1) =
      daysBeforeYear y + (if isLeap y then 366 else 365) := by
  unfold daysBeforeYear isLeap
  simp only [Bool.and_eq_true, Bool.or_eq_true, beq_iff_eq, bne_iff_ne,
    ne_eq]
  split <;> omega

theorem monthStartOfIdx_lt_succ (idx : Int) :
    monthStartOfIdx idx < monthStartOfIdx (idx + 1) := by
  have h0 : 0 ≤ idx % 12 := Int.emod_nonneg idx (by norm_num)
  have h1 : idx % 12 < 12 := Int.emod_lt_of_pos idx (by norm_num)
  rcases (by omega : idx % 12 = 11 ∨ idx % 12 < 11) with h | h
  · have hA : (idx + 1) / 12 = idx / 12 + 1 := by omega
    have hB : (idx + 1) % 12 = 0 := by omega
    have hC : (idx % 12).toNat = 11 := by omega
    unfold monthStartOfIdx
    rw [hA, hB, hC, daysBeforeYear_succ (idx / 12)]
    cases hL : isLeap (idx / 12) <;>
      (simp [daysBeforeArr, hL]; try omega)
  · have hA : (idx + 1) / 12 = idx / 12 := by omega
    have hn : (idx % 12).toNat < 11 := by omega
    have hB : ((idx + 1) % 12).toNat = (idx % 12).toNat + 1 := by omega
    unfold monthStartOfIdx
    rw [hA, hB]
    cases hL : isLeap (idx / 12) <;>
      · set n := (idx % 12).toNat with hdef
        interval_cases n <;> simp [daysBeforeArr, hL] <;> omega

theorem monthStartOfIdx_strictMono : StrictMono monthStartOfIdx :=
  strictMono_int_of_lt_succ monthStartOfIdx_lt_succ

/-- If one month starts strictly before another, it also ends strictly
before the other starts: month windows never straddle a later month's
start. -/
theorem monthEnd_lt_of_start_lt {y m y' m' : Int}
    (h : monthStartSec y m < monthStartSec y' m') :
    monthEndSec y m < monthStartSec y' m' := by
  unfold monthStartSec at h
  have hidx : monthIdx y m < monthIdx y' m' :=
    monthStartOfIdx_strictMono.lt_iff_lt.mp h
  have hsucc : monthIdx y m + 1 ≤ monthIdx y' m' := hidx
  have hle : monthStartOfIdx (monthIdx y m + 1) ≤
      monthStartOfIdx (monthIdx y' m') :=
    monthStartOfIdx_strictMono.monotone hsucc
  have hnext : monthIdx y (m + 1) = monthIdx y m + 1 := by
    unfold monthIdx; ring
  unfold monthEndSec monthStartSec
  rw [hnext]
  omega

/-! ## Data model (`pkg/models`) -/

/-- Model of `models.BucketUsage`: one raw sample row of the `bucket_usage`
table. -/
structure BucketUsage where
  id : Int
  bucketName : String
  sizeBytes : Int
  objectCount : Int
  timestamp : Int
  deriving Repr, DecidableEq

/-- Model of `models.MonthlyBucketAverage`: one row of the `monthly_averages`
table.  The `REAL` average columns are modelled as exact rationals. -/
structure MonthlyBucketAverage where
  bucketName : String
  year : Int
  month : Int
  avgSizeBytes : ℚ
  avgObjectCount : ℚ
  dataPoints : Int
  deriving Repr, DecidableEq

/-- The database state: the two tables plus the `AUTOINCREMENT`
counter of `bucket_usage`. -/
structure Store where
  bucketUsage : List BucketUsage
  monthlyAverages : List MonthlyBucketAverage
  nextId : Int
  deriving Repr, DecidableEq

/-- The `UNIQUE(bucket_name, year, month)` constraint of
`monthly_averages`. -/
def Store.WFAgg (rows : List MonthlyBucketAverage) : Prop :=
  (rows.map fun r => (r.bucketName, r.year, r.month)).Nodup

instance (rows : List MonthlyBucketAverage) :
    Decidable (Store.WFAgg rows) := by
  unfold Store.WFAgg; infer_instance

/-! ## The store (`pkg/db`) -/

/-- Model of `db.StoreBucketUsage`: `INSERT INTO bucket_usage (bucket_name,
size_bytes, object_count, timestamp) VALUES (?, ?, ?, ?)`; the `id`
column is assigned by `AUTOINCREMENT`. -/
def storeBucketUsage (st : Store) (usage : BucketUsage) : Store :=
  { st with
    bucketUsage := st.bucketUsage ++
      [{ usage with id := st.nextId }]
    nextId := st.nextId + 1 }

/-- Row predicate of `WHERE bucket_name = ? AND timestamp BETWEEN ?
AND ?` (`BETWEEN` is inclusive at both ends). -/
def matchesRange (bucketName : String) (startTime endTime : Int)
    (u : BucketUsage) : Bool :=
  u.bucketName == bucketName && startTime ≤ u.timestamp &&
    u.timestamp ≤ endTime

/-- Model of `db.GetBucketUsage`: the range query over `bucket_usage`,
`ORDER BY timestamp` modelled as a stable sort of the rows in
insertion order. -/
def getBucketUsage (st : Store) (bucketName : String)
    (startTime endTime : Int) : List BucketUsage :=
  List.insertionSort (fun a b => a.timestamp ≤ b.timestamp)
    (st.bucketUsage.filter (matchesRange bucketName startTime endTime))

/-- Row predicate of `WHERE timestamp BETWEEN ? AND ?` for the month
window of `(year, month)`. -/
def inMonthWindow (year month : Int) (ts : Int) : Bool :=
  monthStartSec year month ≤ ts && ts ≤ monthEndSec year month

/-- Query `SELECT DISTINCT bucket_name FROM bucket_usage WHERE timestamp
BETWEEN ? AND ?` for the month window. -/
def distinctBuckets (rows : List BucketUsage) (year month : Int) :
    List String :=
  ((rows.filter fun u => inMonthWindow year month u.timestamp).map
    (·.bucketName)).dedup

/-- The samples of one bucket inside the month window: rows matched by
`WHERE bucket_name = ? AND timestamp BETWEEN ? AND ?`. -/
def bucketMonthSamples (rows : List BucketUsage) (bucketName : String)
    (year month : Int) : List BucketUsage :=
  rows.filter fun u =>
    u.bucketName == bucketName && inMonthWindow year month u.timestamp

/-- The row built from `SELECT AVG(size_bytes), AVG(object_count),
COUNT(*)` for one bucket and upserted into `monthly_averages`. -/
def aggRowOf (rows : List BucketUsage) (bucketName : String)
    (year month : Int) : MonthlyBucketAverage :=
  let xs := bucketMonthSamples rows bucketName year month
  { bucketName := bucketName
    year := year
    month := month
    avgSizeBytes := (xs.map fun u => (u.sizeBytes : ℚ)).sum / xs.length
    avgObjectCount :=
      (xs.map fun u => (u.objectCount : ℚ)).sum / xs.length
    dataPoints := xs.length }

/-- The `ON CONFLICT(bucket_name, year, month)` key comparison. -/
def sameKey (r : MonthlyBucketAverage) (bucketName : String)
    (year month : Int) : Bool :=
  r.bucketName == bucketName && r.year == year && r.month == month

/-- Statement `INSERT INTO monthly_averages ... ON CONFLICT(bucket_name, year,
month) DO UPDATE SET avg_size_bytes = ..., avg_object_count = ...,
data_points = ...`: append when no row has the key, otherwise update
the three statistics columns of the conflicting row(s). -/
def upsertMonthlyAverage (rows : List MonthlyBucketAverage)
    (a : MonthlyBucketAverage) : List MonthlyBucketAverage :=
  if rows.any fun r => sameKey r a.bucketName a.year a.month then
    rows.map fun r =>
      if sameKey r a.bucketName a.year a.month then
        { r with
          avgSizeBytes := a.avgSizeBytes
          avgObjectCount := a.avgObjectCount
          dataPoints := a.dataPoints }
      else r
  else rows ++ [a]

/-- Failure points of `db.CalculateMonthlyAverages`: the bucket
discovery query, the per-bucket `AVG` query (at loop index `i`), or
the per-bucket upsert `Exec` (at loop index `i`). -/
inductive CalcFail where
  | discovery
  | avgQuery (i : Nat)
  | upsert (i : Nat)
  deriving Repr, DecidableEq

/-- The per-bucket loop of `CalculateMonthlyAverages`.  Each `AVG`
query runs against the live database, but the loop only writes to
`monthly_averages`, so every aggregate is computed from the unchanged
`bucket_usage` rows `orig`.  On a statement failure the function
returns the error immediately; rows upserted by earlier iterations
remain (there is no transaction in this function). -/
def calcLoop (orig : List BucketUsage) (year month : Int)
    (fail : Option CalcFail) :
    List String → Nat → List MonthlyBucketAverage →
    Option String × List MonthlyBucketAverage
  | [], _, rows => (none, rows)
  | b :: rest, i, rows =>
    if fail = some (.avgQuery i) then (some "avg query failed", rows)
    else if fail = some (.upsert i) then (some "upsert failed", rows)
    else
      calcLoop orig year month fail rest (i + 1)
        (upsertMonthlyAverage rows (aggRowOf orig b year month))

/-- Model of `db.CalculateMonthlyAverages(year, month)`. -/
def calculateMonthlyAverages (st : Store) (year month : Int)
    (fail : Option CalcFail) : Option String × Store :=
  if fail = some .discovery then (some "discovery query failed", st)
  else
    ((calcLoop st.bucketUsage year month fail
        (distinctBuckets st.bucketUsage year month) 0
        st.monthlyAverages).1,
      { st with
        monthlyAverages := (calcLoop st.bucketUsage year month fail
          (distinctBuckets st.bucketUsage year month) 0
          st.monthlyAverages).2 })

/-- Failure points of `db.PruneOldData`: `Begin`, the discovery query
over `monthly_averages`, the `DELETE` for the `i`-th completed month,
or `Commit`. -/
inductive PruneFail where
  | begin
  | query
  | delete (i : Nat)
  | commit
  deriving Repr, DecidableEq

/-- The completed months discovered by `PruneOldData`:
`SELECT DISTINCT year, month FROM monthly_averages` filtered to the
months whose start lies strictly before the start of the month
containing `now`.  (`ORDER BY year, month` only fixes the iteration
order of the deletes and is not modelled.) -/
def completedMonths (st : Store) (nowYear nowMonth : Int) :
    List (Int × Int) :=
  ((st.monthlyAverages.map fun a => (a.year, a.month)).dedup).filter
    fun ym => decide (monthStartSec ym.1 ym.2 <
      monthStartSec nowYear nowMonth)

/-- The delete loop of `PruneOldData`, acting on the
transaction-local view of `bucket_usage` and accumulating
`RowsAffected`. -/
def pruneLoop (fail : Option PruneFail) :
    List (Int × Int) → Nat → List BucketUsage → Nat →
    Option String × List BucketUsage × Nat
  | [], _, rows, total => (none, rows, total)
  | ym :: rest, i, rows, total =>
    if fail = some (.delete i) then (some "delete failed", rows, total)
    else
      pruneLoop fail rest (i + 1)
        (rows.filter fun u => !inMonthWindow ym.1 ym.2 u.timestamp)
        (total + (rows.length -
          (rows.filter fun u => !inMonthWindow ym.1 ym.2 u.timestamp).length))

/-- Model of `db.PruneOldData` with the wall-clock read `time.Now()` injected
as the `(nowYear, nowMonth)` of the month containing it.  The deletes
run inside one transaction: they act on a transaction-local view, and
on any failure the deferred `Rollback` leaves the store unchanged
while the function returns `0` together with the error. -/
def pruneOldData (st : Store) (nowYear nowMonth : Int)
    (fail : Option PruneFail) : (Int × Option String) × Store :=
  if fail = some .begin then ((0, some "begin failed"), st)
  else if fail = some .query then ((0, some "query failed"), st)
  else if completedMonths st nowYear nowMonth = [] then ((0, none), st)
  else
    match pruneLoop fail (completedMonths st nowYear nowMonth) 0
        st.bucketUsage 0 with
    | (some e, _, _) => ((0, some e), st)
    | (none, rows, total) =>
      if fail = some .commit then ((0, some "commit failed"), st)
      else (((total : Int), none), { st with bucketUsage := rows })

/-! ## The admin-API client (`pkg/ceph`)

The HTTP layer is an external collaborator; a stats call is modelled
by its outcome: a transport/status failure, or a response body.  A
body is `none` when the bytes are not valid JSON, otherwise the parsed
JSON value.  Numbers are modelled as integers (the fields the struct
decodes are 64-bit integers; non-integer number literals are not
representable in the model).  Decoding follows Go `encoding/json`
semantics for the `BucketStats` struct declared in the source: the
keys of an object are processed in order, each one decoded into the
field whose tag it matches (matching is case-insensitive by Unicode
simple folding; unknown keys are ignored; a later occurrence of a key
decodes into the current value, so objects merge field-wise and a
scalar overwrites), a `null` value leaves the current value untouched,
a value of the wrong shape or a number outside the `int64` range is an
unmarshal error.  Go saves the first error and keeps scanning, then
returns it; since the caller discards the record whenever the error is
non-nil, stopping at the first error is observably the same and is how
the model is written. -/

/-- A parsed JSON value. -/
inductive Json where
  | null
  | bool (b : Bool)
  | num (n : Int)
  | str (s : String)
  | arr (elems : List Json)
  | obj (fields : List (String × Json))

/-- Unicode simple folding of one character onto the lower-case ASCII
field tags, as Go's field-name matching performs: ASCII letters fold
case-insensitively, and the only non-ASCII characters that simple-fold
onto ASCII letters are the Kelvin sign (U+212A, folds to `k`) and the
long s (U+017F, folds to `s`). -/
def foldChar (c : Char) : Char :=
  if 'A' ≤ c ∧ c ≤ 'Z' then Char.ofNat (c.toNat + 32)
  else if c = 'K' then 'k'
  else if c = 'ſ' then 's'
  else c

/-- Fold a JSON key for matching against a field tag: the key matches
the (lower-case, ASCII, pairwise fold-distinct) tag iff its fold
equals the tag, which coincides with Go's exact-match-first rule. -/
def foldStr (s : String) : String := String.mk (s.data.map foldChar)

/-- Smallest `int64` value. -/
def int64Min : Int := -9223372036854775808

/-- Largest `int64` value. -/
def int64Max : Int := 9223372036854775807

/-- Decode one JSON value into an `int64` field holding `cur`:
`null` is a no-op, a number in the `int64` range overwrites, anything
else (including an out-of-range number) is an unmarshal error. -/
def decodeIntInto (cur : Int) (v : Json) : Except String Int :=
  match v with
  | .null => .ok cur
  | .num n =>
    if int64Min ≤ n ∧ n ≤ int64Max then .ok n
    else .error "number overflows int64"
  | _ => .error "cannot unmarshal into int64 field"

/-- Decode one JSON value into a `string` field holding `cur`. -/
def decodeStrInto (cur : String) (v : Json) : Except String String :=
  match v with
  | .null => .ok cur
  | .str s => .ok s
  | _ => .error "cannot unmarshal into string field"

/-- The anonymous struct under `Usage.RgwMain` (tag `rgw.main`). -/
structure RgwMain where
  sizeKB : Int
  sizeKBActual : Int
  numObjects : Int
  deriving Repr, DecidableEq

/-- Model of `ceph.Usage`. -/
structure Usage where
  rgwMain : RgwMain
  deriving Repr, DecidableEq

/-- Model of `ceph.BucketStats`. -/
structure BucketStats where
  bucket : String
  usage : Usage
  ownerID : String
  ownerName : String
  zonegroup : String
  placementID : String
  created : String
  deriving Repr, DecidableEq

/-- Decode one key of an `rgw.main` object into the struct. -/
def applyRgwField (cur : RgwMain) (kv : String × Json) :
    Except String RgwMain :=
  if foldStr kv.1 == "size_kb" then
    (decodeIntInto cur.sizeKB kv.2).map fun n => { cur with sizeKB := n }
  else if foldStr kv.1 == "size_kb_actual" then
    (decodeIntInto cur.sizeKBActual kv.2).map fun n =>
      { cur with sizeKBActual := n }
  else if foldStr kv.1 == "num_objects" then
    (decodeIntInto cur.numObjects kv.2).map fun n =>
      { cur with numObjects := n }
  else .ok cur

/-- Decode the keys of an `rgw.main` object in order. -/
def decodeRgwFields (cur : RgwMain) :
    List (String × Json) → Except String RgwMain
  | [] => .ok cur
  | kv :: rest => do
    let cur' ← applyRgwField cur kv
    decodeRgwFields cur' rest

/-- Decode one JSON value into the `RgwMain` struct field. -/
def decodeRgwMainInto (cur : RgwMain) (v : Json) :
    Except String RgwMain :=
  match v with
  | .null => .ok cur
  | .obj fields => decodeRgwFields cur fields
  | _ => .error "cannot unmarshal into rgw.main struct"

/-- Decode one key of a `usage` object into the struct. -/
def applyUsageField (cur : Usage) (kv : String × Json) :
    Except String Usage :=
  if foldStr kv.1 == "rgw.main" then
    (decodeRgwMainInto cur.rgwMain kv.2).map fun rm => ⟨rm⟩
  else .ok cur

/-- Decode the keys of a `usage` object in order. -/
def decodeUsageFields (cur : Usage) :
    List (String × Json) → Except String Usage
  | [] => .ok cur
  | kv :: rest => do
    let cur' ← applyUsageField cur kv
    decodeUsageFields cur' rest

/-- Decode one JSON value into the `Usage` struct field. -/
def decodeUsageInto (cur : Usage) (v : Json) : Except String Usage :=
  match v with
  | .null => .ok cur
  | .obj fields => decodeUsageFields cur fields
  | _ => .error "cannot unmarshal into usage struct"

/-- Decode one key of the top-level object into `BucketStats`. -/
def applyStatsField (cur : BucketStats) (kv : String × Json) :
    Except String BucketStats :=
  if foldStr kv.1 == "bucket" then
    (decodeStrInto cur.bucket kv.2).map fun s => { cur with bucket := s }
  else if foldStr kv.1 == "usage" then
    (decodeUsageInto cur.usage kv.2).map fun u => { cur with usage := u }
  else if foldStr kv.1 == "id" then
    (decodeStrInto cur.ownerID kv.2).map fun s => { cur with ownerID := s }
  else if foldStr kv.1 == "owner" then
    (decodeStrInto cur.ownerName kv.2).map fun s =>
      { cur with ownerName := s }
  else if foldStr kv.1 == "zonegroup" then
    (decodeStrInto cur.zonegroup kv.2).map fun s =>
      { cur with zonegroup := s }
  else if foldStr kv.1 == "placement_rule" then
    (decodeStrInto cur.placementID kv.2).map fun s =>
      { cur with placementID := s }
  else if foldStr kv.1 == "creation_time" then
    (decodeStrInto cur.created kv.2).map fun s => { cur with created := s }
  else .ok cur

/-- Decode the keys of the top-level object in order. -/
def decodeStatsFields (cur : BucketStats) :
    List (String × Json) → Except String BucketStats
  | [] => .ok cur
  | kv :: rest => do
    let cur' ← applyStatsField cur kv
    decodeStatsFields cur' rest

/-- The zero value of `BucketStats`, the state `json.Unmarshal`
decodes into. -/
def zeroBucketStats : BucketStats := ⟨"", ⟨⟨0, 0, 0⟩⟩, "", "", "", "", ""⟩

/-- Model of `json.Unmarshal(respBody, &bucketStats)`: invalid JSON
bytes and JSON values that are not objects (except `null`, which Go
leaves as the zero struct) are decode errors; an object is decoded
key by key from the zero struct. -/
def unmarshalBucketStats (body : Option Json) :
    Except String BucketStats :=
  match body with
  | none => .error "invalid JSON"
  | some .null => .ok zeroBucketStats
  | some (.obj fields) => decodeStatsFields zeroBucketStats fields
  | some _ => .error "cannot unmarshal into BucketStats"

/-- Model of `ceph.S3Client.GetBucketUsage`: on a successful signed request,
decode the body, convert `size_kb` to bytes (`* 1024`), take the
object count, and stamp the sample with the current UTC instant `now`
(the retrieval time; the `id` field is left at its zero value, the
store assigns ids). -/
def getBucketUsageClient (bucketName : String)
    (respBody : Except String (Option Json)) (now : Int) :
    Except String BucketUsage :=
  match respBody with
  | .error e => .error ("failed to get bucket stats: " ++ e)
  | .ok body =>
    match unmarshalBucketStats body with
    | .error e => .error ("failed to decode response: " ++ e)
    | .ok stats =>
      .ok { id := 0
            bucketName := bucketName
            sizeBytes := stats.usage.rgwMain.sizeKB * 1024
            objectCount := stats.usage.rgwMain.numObjects
            timestamp := now }

/-- The collection loop of `GetAllBucketsUsage`: a failed per-bucket
stats fetch is logged and skipped (`continue`), a successful one is
appended. -/
def collectUsages (fetch : String → Except String BucketUsage) :
    List String → List BucketUsage
  | [] => []
  | b :: rest =>
    match fetch b with
    | .error _ => collectUsages fetch rest
    | .ok u => u :: collectUsages fetch rest

/-- Model of `ceph.S3Client.GetAllBucketsUsage`: list the buckets (aborting on
a listing failure), then fetch stats bucket by bucket with the
partial-failure policy of `collectUsages`; the batch itself never
returns an error once listing succeeded. -/
def getAllBucketsUsage (bucketsRes : Except String (List String))
    (fetch : String → Except String BucketUsage) :
    Except String (List BucketUsage) :=
  match bucketsRes with
  | .error e => .error e
  | .ok buckets => .ok (collectUsages fetch buckets)

/-! ## Derived notions used to state the properties -/

/-- The `monthly_averages` rows with key `(bucketName, year, month)`. -/
def keyRows (rows : List MonthlyBucketAverage) (bucketName : String)
    (year month : Int) : List MonthlyBucketAverage :=
  rows.filter fun r => sameKey r bucketName year month

/-- Predicate: `ts` lies inside the window of some completed, aggregated month:
the timestamps `PruneOldData` deletes. -/
def inCompletedMonth (st : Store) (nowYear nowMonth : Int)
    (ts : Int) : Bool :=
  (completedMonths st nowYear nowMonth).any fun ym =>
    inMonthWindow ym.1 ym.2 ts

/-- Apply the per-bucket aggregate upserts of
`CalculateMonthlyAverages` for the buckets `bs`, in order. -/
def applyAggRows (orig : List BucketUsage) (year month : Int)
    (rows : List MonthlyBucketAverage) (bs : List String) :
    List MonthlyBucketAverage :=
  bs.foldl
    (fun acc b => upsertMonthlyAverage acc (aggRowOf orig b year month))
    rows

/-- A JSON value decodable into an `int64` field without effect on
whether decoding fails: `null` or an in-range number. -/
def intOk (v : Json) : Bool :=
  match v with
  | .null => true
  | .num n => decide (int64Min ≤ n) && decide (n ≤ int64Max)
  | _ => false

/-- A JSON value decodable into a `string` field. -/
def strOk (v : Json) : Bool :=
  match v with
  | .null => true
  | .str _ => true
  | _ => false

/-- An `rgw.main` object that lacks the `size_kb` and `num_objects`
keys and decodes cleanly (`size_kb_actual`, if present, is
well-typed; other keys are unknown and ignored). -/
def rgwZeroOk (fields : List (String × Json)) : Bool :=
  fields.all fun kv =>
    if foldStr kv.1 == "size_kb" then false
    else if foldStr kv.1 == "size_kb_actual" then intOk kv.2
    else if foldStr kv.1 == "num_objects" then false
    else true

/-- A value of the `usage` key whose decoding leaves size and object
count at zero: `null`, or an object whose `rgw.main` entries are
`null` or `rgwZeroOk` objects. -/
def usageValZeroOk (v : Json) : Bool :=
  match v with
  | .null => true
  | .obj fields =>
    fields.all fun kv =>
      if foldStr kv.1 == "rgw.main" then
        match kv.2 with
        | .null => true
        | .obj g => rgwZeroOk g
        | _ => false
      else true
  | _ => false

/-- The key matches one of the six string-typed field tags of
`BucketStats`. -/
def isStrTag (key : String) : Bool :=
  foldStr key == "bucket" || foldStr key == "id" ||
    foldStr key == "owner" || foldStr key == "zonegroup" ||
    foldStr key == "placement_rule" || foldStr key == "creation_time"

/-- A JSON object that parses into `BucketStats` with no error and
lacks the usage numbers: string fields, if present, are well-typed;
`usage` keys, if present, satisfy `usageValZeroOk`; all other keys are
unknown and ignored.  This is the class of bodies "that parse as a
JSON object but lack the usage sub-object or its fields". -/
def statsZeroOk (fields : List (String × Json)) : Bool :=
  fields.all fun kv =>
    if foldStr kv.1 == "usage" then usageValZeroOk kv.2
    else if isStrTag kv.1 then strOk kv.2
    else true

/-! ### Concrete stores for witnesses and counterexamples -/

/-- A timestamp inside the window of February of year 1. -/
def witnessT : Int := monthStartSec 1 2 + 5

/-- A store with two raw samples of two buckets inside February of
year 1 and no aggregates. -/
def witnessStore : Store :=
  { bucketUsage :=
      [⟨1, "b1", 100, 1, witnessT⟩, ⟨2, "b2", 200, 2, witnessT + 10⟩]
    monthlyAverages := []
    nextId := 3 }

/-- Store `witnessStore` after aggregating February of year 1 (used by the
prune witnesses; the aggregate row's statistics are literal). -/
def witnessStoreAgg : Store :=
  { bucketUsage := witnessStore.bucketUsage
    monthlyAverages := [⟨"b1", 1, 2, 100, 1, 1⟩, ⟨"b2", 1, 2, 200, 2, 1⟩]
    nextId := 3 }

/-- A decodable stats response body. -/
def witnessBody : Json :=
  .obj [("bucket", .str "b"),
    ("usage", .obj [("rgw.main", .obj [("size_kb", .num 2),
      ("size_kb_actual", .num 3), ("num_objects", .num 7)])]),
    ("creation_time", .str "2020-01-01T00:00:00Z")]

/-! ## Lemmas -/

theorem collectUsages_eq_filterMap
    (fetch : String → Except String BucketUsage) (l : List String) :
    collectUsages fetch l = l.filterMap fun b => (fetch b).toOption := by
  induction l with
  | nil => rfl
  | cons b rest ih =>
    unfold collectUsages
    cases hf : fetch b <;>
      simp [List.filterMap_cons, hf, Except.toOption, ih]

theorem decodeIntInto_intOk (cur : Int) (v : Json)
    (h : intOk v = true) : ∃ n, decodeIntInto cur v = .ok n := by
  cases v with
  | null => exact ⟨cur, rfl⟩
  | num n =>
    refine ⟨n, ?_⟩
    have h' : int64Min ≤ n ∧ n ≤ int64Max := by simpa [intOk] using h
    simp [decodeIntInto, h']
  | bool b => simp [intOk] at h
  | str s => simp [intOk] at h
  | arr l => simp [intOk] at h
  | obj f => simp [intOk] at h

theorem decodeStrInto_strOk (cur : String) (v : Json)
    (h : strOk v = true) : ∃ s, decodeStrInto cur v = .ok s := by
  cases v with
  | null => exact ⟨cur, rfl⟩
  | str s => exact ⟨s, rfl⟩
  | bool b => simp [strOk] at h
  | num n => simp [strOk] at h
  | arr l => simp [strOk] at h
  | obj f => simp [strOk] at h

theorem applyRgwField_zero (cur : RgwMain) (kv : String × Json)
    (h : (if foldStr kv.1 == "size_kb" then false
      else if foldStr kv.1 == "size_kb_actual" then intOk kv.2
      else if foldStr kv.1 == "num_objects" then false
      else true) = true)
    (h1 : cur.sizeKB = 0) (h2 : cur.numObjects = 0) :
    ∃ cur', applyRgwField cur kv = .ok cur' ∧
      cur'.sizeKB = 0 ∧ cur'.numObjects = 0 := by
  unfold applyRgwField
  by_cases c1 : (foldStr kv.1 == "size_kb") = true
  · rw [if_pos c1] at h
    simp at h
  · rw [if_neg c1] at h ⊢
    by_cases c2 : (foldStr kv.1 == "size_kb_actual") = true
    · rw [if_pos c2] at h ⊢
      obtain ⟨n, hn⟩ := decodeIntInto_intOk cur.sizeKBActual kv.2 h
      exact ⟨{ cur with sizeKBActual := n },
        by simp [hn, Except.map], h1, h2⟩
    · rw [if_neg c2] at h ⊢
      by_cases c3 : (foldStr kv.1 == "num_objects") = true
      · rw [if_pos c3] at h
        simp at h
      · rw [if_neg c3]
        exact ⟨cur, rfl, h1, h2⟩

theorem decodeRgwFields_zero (fields : List (String × Json)) :
    ∀ cur : RgwMain, rgwZeroOk fields = true →
      cur.sizeKB = 0 → cur.numObjects = 0 →
      ∃ cur', decodeRgwFields cur fields = .ok cur' ∧
        cur'.sizeKB = 0 ∧ cur'.numObjects = 0 := by
  induction fields with
  | nil => intro cur _ h1 h2; exact ⟨cur, rfl, h1, h2⟩
  | cons kv rest ih =>
    intro cur h h1 h2
    unfold rgwZeroOk at h
    rw [List.all_cons, Bool.and_eq_true] at h
    obtain ⟨hhd, htl⟩ := h
    obtain ⟨cur', hstep, h1', h2'⟩ := applyRgwField_zero cur kv hhd h1 h2
    obtain ⟨cur'', hrec, h1'', h2''⟩ := ih cur' htl h1' h2'
    refine ⟨cur'', ?_, h1'', h2''⟩
    simp only [decodeRgwFields]
    rw [hstep]
    exact hrec

theorem applyUsageField_zero (cur : Usage) (kv : String × Json)
    (h : (if foldStr kv.1 == "rgw.main" then
        match kv.2 with
        | .null => true
        | .obj g => rgwZeroOk g
        | _ => false
      else true) = true)
    (h1 : cur.rgwMain.sizeKB = 0) (h2 : cur.rgwMain.numObjects = 0) :
    ∃ cur', applyUsageField cur kv = .ok cur' ∧
      cur'.rgwMain.sizeKB = 0 ∧ cur'.rgwMain.numObjects = 0 := by
  unfold applyUsageField
  by_cases c1 : (foldStr kv.1 == "rgw.main") = true
  · rw [if_pos c1] at h ⊢
    cases hv : kv.2 with
    | null =>
      exact ⟨⟨cur.rgwMain⟩, by simp [decodeRgwMainInto, Except.map],
        h1, h2⟩
    | obj g =>
      rw [hv] at h
      have hg : rgwZeroOk g = true := h
      obtain ⟨rm, hrm, hr1, hr2⟩ := decodeRgwFields_zero g cur.rgwMain
        hg h1 h2
      exact ⟨⟨rm⟩, by simp [decodeRgwMainInto, hrm, Except.map],
        hr1, hr2⟩
    | bool b => rw [hv] at h; exact Bool.noConfusion h
    | num n => rw [hv] at h; exact Bool.noConfusion h
    | str s => rw [hv] at h; exact Bool.noConfusion h
    | arr l => rw [hv] at h; exact Bool.noConfusion h
  · rw [if_neg c1]
    exact ⟨cur, rfl, h1, h2⟩

theorem decodeUsageFields_zero (fields : List (String × Json)) :
    ∀ cur : Usage,
      (fields.all fun kv =>
        if foldStr kv.1 == "rgw.main" then
          match kv.2 with
          | .null => true
          | .obj g => rgwZeroOk g
          | _ => false
        else true) = true →
      cur.rgwMain.sizeKB = 0 → cur.rgwMain.numObjects = 0 →
      ∃ cur', decodeUsageFields cur fields = .ok cur' ∧
        cur'.rgwMain.sizeKB = 0 ∧ cur'.rgwMain.numObjects = 0 := by
  induction fields with
  | nil => intro cur _ h1 h2; exact ⟨cur, rfl, h1, h2⟩
  | cons kv rest ih =>
    intro cur h h1 h2
    rw [List.all_cons, Bool.and_eq_true] at h
    obtain ⟨hhd, htl⟩ := h
    obtain ⟨cur', hstep, h1', h2'⟩ := applyUsageField_zero cur kv hhd h1 h2
    obtain ⟨cur'', hrec, h1'', h2''⟩ := ih cur' htl h1' h2'
    refine ⟨cur'', ?_, h1'', h2''⟩
    simp only [decodeUsageFields]
    rw [hstep]
    exact hrec

theorem decodeUsageInto_zero (v : Json) (cur : Usage)
    (h : usageValZeroOk v = true)
    (h1 : cur.rgwMain.sizeKB = 0) (h2 : cur.rgwMain.numObjects = 0) :
    ∃ cur', decodeUsageInto cur v = .ok cur' ∧
      cur'.rgwMain.sizeKB = 0 ∧ cur'.rgwMain.numObjects = 0 := by
  cases v with
  | null => exact ⟨cur, rfl, h1, h2⟩
  | obj fields => exact decodeUsageFields_zero fields cur h h1 h2
  | bool b => exact Bool.noConfusion h
  | num n => exact Bool.noConfusion h
  | str s => exact Bool.noConfusion h
  | arr l => exact Bool.noConfusion h

theorem applyStatsField_zero (cur : BucketStats) (kv : String × Json)
    (h : (if foldStr kv.1 == "usage" then usageValZeroOk kv.2
      else if isStrTag kv.1 then strOk kv.2
      else true) = true)
    (h1 : cur.usage.rgwMain.sizeKB = 0)
    (h2 : cur.usage.rgwMain.numObjects = 0) :
    ∃ cur', applyStatsField cur kv = .ok cur' ∧
      cur'.usage.rgwMain.sizeKB = 0 ∧
      cur'.usage.rgwMain.numObjects = 0 := by
  unfold applyStatsField
  by_cases cu : (foldStr kv.1 == "usage") = true
  · have cb : ¬ (foldStr kv.1 == "bucket") = true := fun hcb =>
      absurd (eq_of_beq cu ▸ eq_of_beq hcb) (by decide)
    rw [if_neg cb, if_pos cu]
    rw [if_pos cu] at h
    obtain ⟨u', hu, hz1, hz2⟩ := decodeUsageInto_zero kv.2 cur.usage h h1 h2
    exact ⟨{ cur with usage := u' }, by simp [hu, Except.map], hz1, hz2⟩
  · rw [if_neg cu] at h
    have hstr : isStrTag kv.1 = true → strOk kv.2 = true := fun ht => by
      rwa [if_pos ht] at h
    by_cases cb : (foldStr kv.1 == "bucket") = true
    · rw [if_pos cb]
      obtain ⟨s, hs⟩ := decodeStrInto_strOk cur.bucket kv.2
        (hstr (by simp [isStrTag, cb]))
      exact ⟨{ cur with bucket := s }, by simp [hs, Except.map], h1, h2⟩
    · rw [if_neg cb, if_neg cu]
      by_cases ci : (foldStr kv.1 == "id") = true
      · rw [if_pos ci]
        obtain ⟨s, hs⟩ := decodeStrInto_strOk cur.ownerID kv.2
          (hstr (by simp [isStrTag, ci]))
        exact ⟨{ cur with ownerID := s }, by simp [hs, Except.map],
          h1, h2⟩
      · rw [if_neg ci]
        by_cases co : (foldStr kv.1 == "owner") = true
        · rw [if_pos co]
          obtain ⟨s, hs⟩ := decodeStrInto_strOk cur.ownerName kv.2
            (hstr (by simp [isStrTag, co]))
          exact ⟨{ cur with ownerName := s }, by simp [hs, Except.map],
            h1, h2⟩
        · rw [if_neg co]
          by_cases cz : (foldStr kv.1 == "zonegroup") = true
          · rw [if_pos cz]
            obtain ⟨s, hs⟩ := decodeStrInto_strOk cur.zonegroup kv.2
              (hstr (by simp [isStrTag, cz]))
            exact ⟨{ cur with zonegroup := s },
              by simp [hs, Except.map], h1, h2⟩
          · rw [if_neg cz]
            by_cases cp : (foldStr kv.1 == "placement_rule") = true
            · rw [if_pos cp]
              obtain ⟨s, hs⟩ := decodeStrInto_strOk cur.placementID kv.2
                (hstr (by simp [isStrTag, cp]))
              exact ⟨{ cur with placementID := s },
                by simp [hs, Except.map], h1, h2⟩
            · rw [if_neg cp]
              by_cases cc : (foldStr kv.1 == "creation_time") = true
              · rw [if_pos cc]
                obtain ⟨s, hs⟩ := decodeStrInto_strOk cur.created kv.2
                  (hstr (by simp [isStrTag, cc]))
                exact ⟨{ cur with created := s },
                  by simp [hs, Except.map], h1, h2⟩
              · rw [if_neg cc]
                exact ⟨cur, rfl, h1, h2⟩

theorem decodeStatsFields_zero (fields : List (String × Json)) :
    ∀ cur : BucketStats, statsZeroOk fields = true →
      cur.usage.rgwMain.sizeKB = 0 → cur.usage.rgwMain.numObjects = 0 →
      ∃ cur', decodeStatsFields cur fields = .ok cur' ∧
        cur'.usage.rgwMain.sizeKB = 0 ∧
        cur'.usage.rgwMain.numObjects = 0 := by
  induction fields with
  | nil => intro cur _ h1 h2; exact ⟨cur, rfl, h1, h2⟩
  | cons kv rest ih =>
    intro cur h h1 h2
    unfold statsZeroOk at h
    rw [List.all_cons, Bool.and_eq_true] at h
    obtain ⟨hhd, htl⟩ := h
    obtain ⟨cur', hstep, h1', h2'⟩ := applyStatsField_zero cur kv hhd h1 h2
    obtain ⟨cur'', hrec, h1'', h2''⟩ := ih cur' htl h1' h2'
    refine ⟨cur'', ?_, h1'', h2''⟩
    simp only [decodeStatsFields]
    rw [hstep]
    exact hrec

theorem length_filter_not_add {α : Type} (l : List α) (p : α → Bool) :
    (l.filter fun a => !p a).length + (l.filter p).length = l.length := by
  induction l with
  | nil => rfl
  | cons x xs ih => cases hx : p x <;> simp [List.filter_cons, hx] <;> omega

theorem all_not_eq_not_any {α : Type} (l : List α) (f : α → Bool) :
    (l.all fun x => !f x) = !l.any f := by
  induction l with
  | nil => rfl
  | cons x xs ih => simp [List.all_cons, List.any_cons, ih]

theorem pruneLoop_ok (fail : Option PruneFail) (ms : List (Int × Int)) :
    ∀ i rows total rows' total',
      pruneLoop fail ms i rows total = (none, rows', total') →
      rows' = rows.filter
          (fun u => ms.all fun ym => !inMonthWindow ym.1 ym.2 u.timestamp) ∧
        total' = total + (rows.length - rows'.length) := by
  induction ms with
  | nil =>
    intro i rows total rows' total' h
    unfold pruneLoop at h
    obtain ⟨h1, h2⟩ : rows = rows' ∧ total = total' := by simpa using h
    subst h1; subst h2
    exact ⟨by simp, by omega⟩
  | cons ym rest ih =>
    intro i rows total rows' total' h
    unfold pruneLoop at h
    by_cases hf : fail = some (.delete i)
    · rw [if_pos hf] at h
      exact absurd h (by simp)
    · rw [if_neg hf] at h
      obtain ⟨h1, h2⟩ := ih _ _ _ _ _ h
      refine ⟨?_, ?_⟩
      · rw [h1, List.filter_filter]
        refine List.filter_congr ?_
        intro u hu
        rw [List.all_cons, Bool.and_comm]
      · have hA := List.length_filter_le
          (fun u => !inMonthWindow ym.1 ym.2 u.timestamp) rows
        have hB : rows'.length ≤
            (rows.filter fun u => !inMonthWindow ym.1 ym.2 u.timestamp).length := by
          rw [h1]; exact List.length_filter_le _ _
        omega

theorem pruneLoop_none_fst (ms : List (Int × Int)) :
    ∀ i rows total, (pruneLoop none ms i rows total).1 = none := by
  induction ms with
  | nil => intro i rows total; rfl
  | cons ym rest ih =>
    intro i rows total
    unfold pruneLoop
    rw [if_neg (by simp)]
    exact ih _ _ _

theorem completedMonths_mem (st : Store) (nowYear nowMonth : Int)
    (ym : Int × Int) :
    ym ∈ completedMonths st nowYear nowMonth ↔
      ((∃ a ∈ st.monthlyAverages, a.year = ym.1 ∧ a.month = ym.2) ∧
        monthStartSec ym.1 ym.2 < monthStartSec nowYear nowMonth) := by
  simp [completedMonths, List.mem_filter, List.mem_dedup, List.mem_map,
    Prod.ext_iff]

theorem pruneOldData_outcome (st : Store) (nowYear nowMonth : Int)
    (fail : Option PruneFail) :
    ((pruneOldData st nowYear nowMonth fail).1.2 = none ∧
      (pruneOldData st nowYear nowMonth fail).1.1 =
        ((st.bucketUsage.filter fun u =>
          inCompletedMonth st nowYear nowMonth u.timestamp).length : Int) ∧
      (pruneOldData st nowYear nowMonth fail).2 =
        { st with bucketUsage := st.bucketUsage.filter fun u =>
            !inCompletedMonth st nowYear nowMonth u.timestamp }) ∨
    ((pruneOldData st nowYear nowMonth fail).1.2 ≠ none ∧
      (pruneOldData st nowYear nowMonth fail).1.1 = 0 ∧
      (pruneOldData st nowYear nowMonth fail).2 = st) := by
  by_cases hb : fail = some .begin
  · right; simp [pruneOldData, hb]
  by_cases hq : fail = some .query
  · right; simp [pruneOldData, hb, hq]
  by_cases hms : completedMonths st nowYear nowMonth = []
  · left
    have h1 : st.bucketUsage.filter
        (fun u => inCompletedMonth st nowYear nowMonth u.timestamp) = [] :=
      List.filter_eq_nil_iff.mpr fun a _ => by simp [inCompletedMonth, hms]
    have h2 : st.bucketUsage.filter
        (fun u => !inCompletedMonth st nowYear nowMonth u.timestamp) =
          st.bucketUsage :=
      List.filter_eq_self.mpr fun a _ => by simp [inCompletedMonth, hms]
    refine ⟨?_, ?_, ?_⟩ <;> simp [pruneOldData, hb, hq, hms, h1, h2]
  · rcases hp : pruneLoop fail (completedMonths st nowYear nowMonth) 0
        st.bucketUsage 0 with ⟨err, rows, total⟩
    cases err with
    | some e => right; simp [pruneOldData, hb, hq, hms, hp]
    | none =>
      obtain ⟨h1, h2⟩ := pruneLoop_ok fail _ 0 _ 0 rows total hp
      by_cases hc : fail = some .commit
      · right
        rw [hc] at hp
        simp [pruneOldData, hb, hq, hms, hp, hc]
      · left
        have hrows : rows = st.bucketUsage.filter fun u =>
            !inCompletedMonth st nowYear nowMonth u.timestamp := by
          rw [h1]
          refine List.filter_congr ?_
          intro u hu
          simp [inCompletedMonth, all_not_eq_not_any]
        have hsplit := length_filter_not_add st.bucketUsage
          (fun u => inCompletedMonth st nowYear nowMonth u.timestamp)
        have hlen : rows.length = (st.bucketUsage.filter fun u =>
            !inCompletedMonth st nowYear nowMonth u.timestamp).length := by
          rw [hrows]
        have htotal : total = (st.bucketUsage.filter fun u =>
            inCompletedMonth st nowYear nowMonth u.timestamp).length := by
          omega
        refine ⟨?_, ?_, ?_⟩ <;>
          simp [pruneOldData, hb, hq, hms, hp, hc, htotal, hrows]

theorem sameKey_iff (r : MonthlyBucketAverage) (b : String)
    (y m : Int) :
    sameKey r b y m = true ↔
      (r.bucketName = b ∧ r.year = y ∧ r.month = m) := by
  simp [sameKey, and_assoc]

theorem keyRows_short (rows : List MonthlyBucketAverage)
    (hWF : Store.WFAgg rows) (b : String) (y m : Int) :
    keyRows rows b y m = [] ∨
      ∃ r0, r0 ∈ rows ∧ sameKey r0 b y m = true ∧
        keyRows rows b y m = [r0] := by
  induction rows with
  | nil => exact Or.inl rfl
  | cons x xs ih =>
    have hWF' : ((x :: xs).map fun r => (r.bucketName, r.year, r.month)).Nodup :=
      hWF
    rw [List.map_cons, List.nodup_cons] at hWF'
    obtain ⟨hx, hxs⟩ := hWF'
    unfold keyRows
    rw [List.filter_cons]
    by_cases hsx : sameKey x b y m = true
    · rw [if_pos hsx]
      refine Or.inr ⟨x, List.mem_cons_self x xs, hsx, ?_⟩
      have hnil : xs.filter (fun r => sameKey r b y m) = [] := by
        rw [List.filter_eq_nil_iff]
        intro r hr hc
        apply hx
        obtain ⟨e1, e2, e3⟩ := (sameKey_iff r b y m).mp hc
        obtain ⟨f1, f2, f3⟩ := (sameKey_iff x b y m).mp hsx
        rw [f1, f2, f3, ← e1, ← e2, ← e3]
        exact List.mem_map.mpr ⟨r, hr, rfl⟩
      rw [hnil]
    · rw [if_neg hsx]
      rcases ih hxs with h | ⟨r0, hr0, hs, he⟩
      · exact Or.inl h
      · exact Or.inr ⟨r0, List.mem_cons_of_mem _ hr0, hs, he⟩

/-- The `DO UPDATE` arm of the upsert preserves each row's key. -/
theorem upsert_update_sameKey (a r : MonthlyBucketAverage)
    (b : String) (y m : Int) :
    sameKey (if sameKey r a.bucketName a.year a.month = true then
        { r with
          avgSizeBytes := a.avgSizeBytes
          avgObjectCount := a.avgObjectCount
          dataPoints := a.dataPoints }
      else r) b y m = sameKey r b y m := by
  split <;> rfl

theorem wfAgg_upsert (rows : List MonthlyBucketAverage)
    (a : MonthlyBucketAverage) (h : Store.WFAgg rows) :
    Store.WFAgg (upsertMonthlyAverage rows a) := by
  unfold upsertMonthlyAverage
  by_cases hany :
      (rows.any fun r => sameKey r a.bucketName a.year a.month) = true
  · rw [if_pos hany]
    unfold Store.WFAgg
    rw [List.map_map]
    have : ((fun r : MonthlyBucketAverage => (r.bucketName, r.year, r.month)) ∘
        fun r => if sameKey r a.bucketName a.year a.month = true then
          { r with
            avgSizeBytes := a.avgSizeBytes
            avgObjectCount := a.avgObjectCount
            dataPoints := a.dataPoints }
        else r) =
        fun r => (r.bucketName, r.year, r.month) := by
      funext r
      simp only [Function.comp_apply]
      split <;> rfl
    rw [this]
    exact h
  · rw [if_neg hany]
    unfold Store.WFAgg
    rw [List.map_append]
    refine List.nodup_append.mpr ⟨h, by simp, ?_⟩
    simp only [List.map_cons, List.map_nil, List.disjoint_singleton]
    intro hc
    obtain ⟨r, hr, hkey⟩ := List.mem_map.mp hc
    apply hany
    refine List.any_eq_true.mpr ⟨r, hr, ?_⟩
    refine (sameKey_iff r a.bucketName a.year a.month).mpr ?_
    simp only [Prod.mk.injEq] at hkey
    exact hkey

theorem keyRows_upsert_same (rows : List MonthlyBucketAverage)
    (a : MonthlyBucketAverage) (hWF : Store.WFAgg rows) :
    keyRows (upsertMonthlyAverage rows a) a.bucketName a.year a.month =
      [a] := by
  unfold upsertMonthlyAverage
  by_cases hany :
      (rows.any fun r => sameKey r a.bucketName a.year a.month) = true
  · rw [if_pos hany]
    unfold keyRows
    rw [List.filter_map]
    have hpf : (rows.filter
        ((fun r => sameKey r a.bucketName a.year a.month) ∘
          fun r => if sameKey r a.bucketName a.year a.month = true then
            { r with
              avgSizeBytes := a.avgSizeBytes
              avgObjectCount := a.avgObjectCount
              dataPoints := a.dataPoints }
          else r)) =
        rows.filter fun r => sameKey r a.bucketName a.year a.month := by
      refine List.filter_congr ?_
      intro r _
      simp only [Function.comp_apply]
      exact upsert_update_sameKey a r a.bucketName a.year a.month
    rw [hpf]
    rcases keyRows_short rows hWF a.bucketName a.year a.month with
      hnil | ⟨r0, hr0, hs, he⟩
    · obtain ⟨r, hr, hp⟩ := List.any_eq_true.mp hany
      have : r ∈ keyRows rows a.bucketName a.year a.month :=
        List.mem_filter.mpr ⟨hr, hp⟩
      rw [hnil] at this
      cases this
    · rw [show rows.filter (fun r => sameKey r a.bucketName a.year a.month) =
        [r0] from he]
      rw [List.map_cons, List.map_nil, if_pos hs]
      obtain ⟨e1, e2, e3⟩ :=
        (sameKey_iff r0 a.bucketName a.year a.month).mp hs
      rw [e1, e2, e3]
  · rw [if_neg hany]
    unfold keyRows
    rw [List.filter_append]
    have h1 : rows.filter (fun r => sameKey r a.bucketName a.year a.month) =
        [] := by
      rw [List.filter_eq_nil_iff]
      intro r hr hc
      exact hany (List.any_eq_true.mpr ⟨r, hr, hc⟩)
    have h2 : [a].filter (fun r => sameKey r a.bucketName a.year a.month) =
        [a] := by
      simp [sameKey]
    rw [h1, h2, List.nil_append]

theorem keyRows_upsert_other (rows : List MonthlyBucketAverage)
    (a : MonthlyBucketAverage) (b : String) (y m : Int)
    (hne : ¬(a.bucketName = b ∧ a.year = y ∧ a.month = m)) :
    keyRows (upsertMonthlyAverage rows a) b y m = keyRows rows b y m := by
  unfold upsertMonthlyAverage keyRows
  by_cases hany :
      (rows.any fun r => sameKey r a.bucketName a.year a.month) = true
  · rw [if_pos hany, List.filter_map]
    have hpf : (rows.filter
        ((fun r => sameKey r b y m) ∘
          fun r => if sameKey r a.bucketName a.year a.month = true then
            { r with
              avgSizeBytes := a.avgSizeBytes
              avgObjectCount := a.avgObjectCount
              dataPoints := a.dataPoints }
          else r)) = rows.filter fun r => sameKey r b y m := by
      refine List.filter_congr ?_
      intro r _
      simp only [Function.comp_apply]
      exact upsert_update_sameKey a r b y m
    rw [hpf]
    have hid : ∀ r ∈ rows.filter fun r => sameKey r b y m,
        (if sameKey r a.bucketName a.year a.month = true then
          { r with
            avgSizeBytes := a.avgSizeBytes
            avgObjectCount := a.avgObjectCount
            dataPoints := a.dataPoints }
        else r) = r := by
      intro r hr
      rw [if_neg]
      intro hc
      obtain ⟨e1, e2, e3⟩ := (sameKey_iff r a.bucketName a.year a.month).mp hc
      obtain ⟨f1, f2, f3⟩ :=
        (sameKey_iff r b y m).mp (List.mem_filter.mp hr).2
      exact hne ⟨e1 ▸ f1, e2 ▸ f2, e3 ▸ f3⟩
    calc (rows.filter fun r => sameKey r b y m).map
          (fun r => if sameKey r a.bucketName a.year a.month = true then
            { r with
              avgSizeBytes := a.avgSizeBytes
              avgObjectCount := a.avgObjectCount
              dataPoints := a.dataPoints }
          else r) =
        (rows.filter fun r => sameKey r b y m).map id :=
          List.map_congr_left hid
      _ = rows.filter fun r => sameKey r b y m := List.map_id _
  · rw [if_neg hany, List.filter_append]
    have hsa : ¬ sameKey a b y m = true := fun hc =>
      hne ((sameKey_iff a b y m).mp hc)
    have h2 : [a].filter (fun r => sameKey r b y m) = [] := by
      rw [List.filter_eq_nil_iff]
      intro r hr
      rw [List.mem_singleton] at hr
      exact hr ▸ hsa
    rw [h2, List.append_nil]

theorem calcLoop_success (orig : List BucketUsage) (y m : Int)
    (L : List String) :
    ∀ i rows, L.Nodup → Store.WFAgg rows →
      (∀ b ∈ L,
        keyRows (calcLoop orig y m none L i rows).2 b y m =
          [aggRowOf orig b y m]) ∧
      (∀ b, b ∉ L →
        keyRows (calcLoop orig y m none L i rows).2 b y m =
          keyRows rows b y m) ∧
      (calcLoop orig y m none L i rows).1 = none := by
  induction L with
  | nil =>
    intro i rows _ _
    exact ⟨fun b hb => absurd hb (List.not_mem_nil b), fun b _ => rfl, rfl⟩
  | cons b0 rest ih =>
    intro i rows hN hWF
    obtain ⟨hb0, hrestN⟩ := List.nodup_cons.mp hN
    unfold calcLoop
    rw [if_neg (by simp), if_neg (by simp)]
    have hWF' : Store.WFAgg
        (upsertMonthlyAverage rows (aggRowOf orig b0 y m)) :=
      wfAgg_upsert rows _ hWF
    obtain ⟨ihIn, ihOut, ihErr⟩ := ih (i + 1)
      (upsertMonthlyAverage rows (aggRowOf orig b0 y m)) hrestN hWF'
    refine ⟨?_, ?_, ihErr⟩
    · intro b hb
      rcases List.mem_cons.mp hb with rfl | hbr
      · rw [ihOut b hb0]
        exact keyRows_upsert_same rows _ hWF
      · exact ihIn b hbr
    · intro b hb
      have hb0ne : b0 ≠ b := fun he => hb (he ▸ List.mem_cons_self b0 rest)
      rw [ihOut b fun hbr => hb (List.mem_cons_of_mem _ hbr)]
      exact keyRows_upsert_other rows _ b y m fun hc => hb0ne hc.1

theorem mem_distinctBuckets (l : List BucketUsage) (y m : Int)
    (b : String) :
    b ∈ distinctBuckets l y m ↔
      ∃ u ∈ l, u.bucketName = b ∧ monthStartSec y m ≤ u.timestamp ∧
        u.timestamp ≤ monthEndSec y m := by
  simp only [distinctBuckets, List.mem_dedup, List.mem_map,
    List.mem_filter, inMonthWindow, Bool.and_eq_true, decide_eq_true_eq]
  constructor
  · rintro ⟨u, ⟨hu, hw⟩, hname⟩
    exact ⟨u, hu, hname, hw⟩
  · rintro ⟨u, hu, hname, hw⟩
    exact ⟨u, ⟨hu, hw⟩, hname⟩

theorem calcLoop_err_take (orig : List BucketUsage) (y m : Int)
    (fail : Option CalcFail) (L : List String) :
    ∀ i rows, (calcLoop orig y m fail L i rows).1 ≠ none →
      ∃ k, (calcLoop orig y m fail L i rows).2 =
        applyAggRows orig y m rows (L.take k) := by
  induction L with
  | nil => intro i rows h; exact absurd rfl h
  | cons b rest ih =>
    intro i rows h
    unfold calcLoop at h ⊢
    by_cases h1 : fail = some (.avgQuery i)
    · rw [if_pos h1]
      exact ⟨0, rfl⟩
    · rw [if_neg h1] at h ⊢
      by_cases h2 : fail = some (.upsert i)
      · rw [if_pos h2]
        exact ⟨0, rfl⟩
      · rw [if_neg h2] at h ⊢
        obtain ⟨k, hk⟩ := ih (i + 1)
          (upsertMonthlyAverage rows (aggRowOf orig b y m)) h
        exact ⟨k + 1, hk⟩

/-! ## The claims -/

/-- C5: for every listed bucket set, `GetAllBucketsUsage` returns, with
no batch-level error, exactly the usage records of the buckets whose
stats fetch succeeded, in listing order; a per-bucket failure is
dropped rather than surfaced. -/
theorem getAllBucketsUsage_drops_failed_fetches
    (buckets : List String)
    (fetch : String → Except String BucketUsage) :
    getAllBucketsUsage (.ok buckets) fetch =
      .ok (buckets.filterMap fun b => (fetch b).toOption) := by
  simp only [getAllBucketsUsage]
  rw [collectUsages_eq_filterMap]

/-- C9: `PruneOldData` never touches the `monthly_averages` table:
whatever the store, the reference month, and the failure point, every
aggregate row is exactly as before the call. -/
theorem pruneOldData_preserves_monthly_averages (st : Store)
    (nowYear nowMonth : Int) (fail : Option PruneFail) :
    (pruneOldData st nowYear nowMonth fail).2.monthlyAverages =
      st.monthlyAverages := by
  unfold pruneOldData
  repeat' split <;> try rfl

/-- C8: for every stats response body that decodes, the client's
`GetBucketUsage` returns a record with `sizeBytes` the reported
kibibyte size times 1024, `objectCount` the reported object count, and
`timestamp` the retrieval instant `now` — independent of the decoded
`creation_time`. -/
theorem getBucketUsageClient_decoded_fields (bucketName : String)
    (body : Json) (now : Int) (stats : BucketStats)
    (h : unmarshalBucketStats (some body) = .ok stats) :
    getBucketUsageClient bucketName (.ok (some body)) now =
      .ok ⟨0, bucketName, stats.usage.rgwMain.sizeKB * 1024,
        stats.usage.rgwMain.numObjects, now⟩ := by
  simp only [getBucketUsageClient]
  rw [h]

theorem getBucketUsageClient_decoded_fields_witness :
    getBucketUsageClient "b" (.ok (some witnessBody)) 42 =
      .ok ⟨0, "b", 2 * 1024, 7, 42⟩ :=
  getBucketUsageClient_decoded_fields "b" witnessBody 42
    ⟨"b", ⟨⟨2, 3, 7⟩⟩, "", "", "", "", "2020-01-01T00:00:00Z"⟩ rfl

/-- C10 counterexample: the response body `{"usage": 5}` is a valid
JSON object, yet `GetBucketUsage` returns a decode error for it — so
"decode error iff the body is not valid JSON for an object" is false
as stated. -/
theorem getBucketUsageClient_decode_error_cex :
    getBucketUsageClient "b"
      (.ok (some (Json.obj [("usage", Json.num 5)]))) 0 =
      .error "failed to decode response: cannot unmarshal into usage struct" :=
  rfl

/-- C10 amended: a decode error happens exactly when unmarshalling
fails — invalid JSON always fails, but a body that parses as a JSON
object can also fail when a recognized field carries a wrongly-shaped
value or an `int64`-overflowing number.  Every body that parses as a
JSON object lacking the usage numbers (`statsZeroOk`: string fields,
if present, are strings or `null`; `usage` keys, if present, are
`null` or objects whose `rgw.main` entries are `null` or objects
without `size_kb`/`num_objects`; other keys arbitrary) — in
particular `{}`, an object with only a `bucket` string, or one with an
empty `usage` object — decodes with no error to a record with
`sizeBytes = 0` and `objectCount = 0`, and a body that is not valid
JSON is a decode error. -/
theorem getBucketUsageClient_zero_on_missing_usage
    (bucketName : String) (now : Int)
    (fields : List (String × Json))
    (h : statsZeroOk fields = true) :
    getBucketUsageClient bucketName (.ok (some (.obj fields))) now =
        .ok ⟨0, bucketName, 0, 0, now⟩ ∧
      getBucketUsageClient bucketName (.ok none) now =
        .error "failed to decode response: invalid JSON" := by
  refine ⟨?_, rfl⟩
  obtain ⟨stats, hdec, hz1, hz2⟩ :=
    decodeStatsFields_zero fields zeroBucketStats h rfl rfl
  simp only [getBucketUsageClient, unmarshalBucketStats]
  rw [hdec]
  simp [hz1, hz2]

theorem getBucketUsageClient_zero_on_missing_usage_witness :
    getBucketUsageClient "b" (.ok (some (.obj [("bucket", .str "b"),
        ("usage", .obj [("rgw.main", .obj [])]), ("foo", .num 1)]))) 5 =
        .ok ⟨0, "b", 0, 0, 5⟩ ∧
      getBucketUsageClient "b" (.ok none) 5 =
        .error "failed to decode response: invalid JSON" :=
  getBucketUsageClient_zero_on_missing_usage "b" 5
    [("bucket", .str "b"), ("usage", .obj [("rgw.main", .obj [])]),
      ("foo", .num 1)] (by decide)

/-- C7: storing a sample and range-querying its bucket over any window
containing its timestamp returns a row carrying the stored
`bucketName`, `sizeBytes`, `objectCount` and `timestamp` unchanged. -/
theorem storeBucketUsage_getBucketUsage_roundTrip (st : Store)
    (u : BucketUsage) (s e : Int)
    (h1 : s ≤ u.timestamp) (h2 : u.timestamp ≤ e) :
    ∃ v ∈ getBucketUsage (storeBucketUsage st u) u.bucketName s e,
      v.bucketName = u.bucketName ∧ v.sizeBytes = u.sizeBytes ∧
        v.objectCount = u.objectCount ∧ v.timestamp = u.timestamp := by
  refine ⟨{ u with id := st.nextId }, ?_, rfl, rfl, rfl, rfl⟩
  unfold getBucketUsage storeBucketUsage
  rw [(List.perm_insertionSort _ _).mem_iff, List.mem_filter]
  exact ⟨by simp, by simp [matchesRange, h1, h2]⟩

theorem pruneOldData_none_no_error (st : Store)
    (nowYear nowMonth : Int) :
    (pruneOldData st nowYear nowMonth none).1.2 = none := by
  by_cases hms : completedMonths st nowYear nowMonth = []
  · simp [pruneOldData, hms]
  · rcases hp : pruneLoop none (completedMonths st nowYear nowMonth) 0
        st.bucketUsage 0 with ⟨err, rows, total⟩
    have herr := pruneLoop_none_fst (completedMonths st nowYear nowMonth)
      0 st.bucketUsage 0
    rw [hp] at herr
    subst herr
    simp [pruneOldData, hms, hp]

/-- C2: a successful `PruneOldData` run deletes exactly the raw
samples — of every bucket — whose timestamp lies in the window of some
completed month that has at least one aggregate row, returns their
total count with no error, and returns `0` with no error when no
completed month has an aggregate row. -/
theorem pruneOldData_deletes_completed_months (st : Store)
    (nowYear nowMonth : Int) :
    (∀ ym : Int × Int, ym ∈ completedMonths st nowYear nowMonth ↔
      ((∃ a ∈ st.monthlyAverages, a.year = ym.1 ∧ a.month = ym.2) ∧
        monthStartSec ym.1 ym.2 < monthStartSec nowYear nowMonth)) ∧
    (pruneOldData st nowYear nowMonth none).2.bucketUsage =
      st.bucketUsage.filter (fun u =>
        !inCompletedMonth st nowYear nowMonth u.timestamp) ∧
    (pruneOldData st nowYear nowMonth none).1.1 =
      ((st.bucketUsage.filter fun u =>
        inCompletedMonth st nowYear nowMonth u.timestamp).length : Int) ∧
    (pruneOldData st nowYear nowMonth none).1.2 = none ∧
    (completedMonths st nowYear nowMonth = [] →
      (pruneOldData st nowYear nowMonth none).1.1 = 0 ∧
      (pruneOldData st nowYear nowMonth none).2 = st) := by
  have hnone := pruneOldData_none_no_error st nowYear nowMonth
  rcases pruneOldData_outcome st nowYear nowMonth none with
    ⟨_, h2, h3⟩ | ⟨h1, _, _⟩
  · refine ⟨completedMonths_mem st nowYear nowMonth, by rw [h3], h2,
      hnone, ?_⟩
    intro hms
    have hpos : st.bucketUsage.filter
        (fun u => inCompletedMonth st nowYear nowMonth u.timestamp) = [] :=
      List.filter_eq_nil_iff.mpr fun a _ => by simp [inCompletedMonth, hms]
    have hneg : st.bucketUsage.filter
        (fun u => !inCompletedMonth st nowYear nowMonth u.timestamp) =
          st.bucketUsage :=
      List.filter_eq_self.mpr fun a _ => by simp [inCompletedMonth, hms]
    constructor
    · rw [h2, hpos]; rfl
    · rw [h3, hneg]
  · exact absurd hnone h1

theorem pruneOldData_deletes_completed_months_witness :
    (pruneOldData witnessStore 1 3 none).1.1 = 0 ∧
      (pruneOldData witnessStore 1 3 none).2 = witnessStore :=
  (pruneOldData_deletes_completed_months witnessStore 1 3).2.2.2.2
    (by decide)

/-- C3: whatever the failure point, `PruneOldData` is atomic: either
it reports no error and the raw table is exactly the original minus
every sample of every completed aggregated month (all deletes
committed together), or it reports an error, returns `0` rows pruned,
and the whole store is unchanged. -/
theorem pruneOldData_transaction_atomic (st : Store)
    (nowYear nowMonth : Int) (fail : Option PruneFail) :
    ((pruneOldData st nowYear nowMonth fail).1.2 = none ∧
      (pruneOldData st nowYear nowMonth fail).2.bucketUsage =
        st.bucketUsage.filter fun u =>
          !inCompletedMonth st nowYear nowMonth u.timestamp) ∨
    ((pruneOldData st nowYear nowMonth fail).1.2 ≠ none ∧
      (pruneOldData st nowYear nowMonth fail).1.1 = 0 ∧
      (pruneOldData st nowYear nowMonth fail).2 = st) := by
  rcases pruneOldData_outcome st nowYear nowMonth fail with
    ⟨h1, _, h3⟩ | h
  · exact Or.inl ⟨h1, by rw [h3]⟩
  · exact Or.inr h

/-- C4: no sample with a timestamp at or after the start of the month
containing `now` is ever deleted by `PruneOldData`, whatever the
failure point: completed months start strictly before the current
month, so their windows end strictly before it starts. -/
theorem pruneOldData_never_deletes_current_month (st : Store)
    (nowYear nowMonth : Int) (fail : Option PruneFail)
    (u : BucketUsage) (hu : u ∈ st.bucketUsage)
    (hts : monthStartSec nowYear nowMonth ≤ u.timestamp) :
    u ∈ (pruneOldData st nowYear nowMonth fail).2.bucketUsage := by
  have hnot : inCompletedMonth st nowYear nowMonth u.timestamp = false := by
    refine List.any_eq_false.mpr ?_
    intro ym hym
    have hlt : monthStartSec ym.1 ym.2 < monthStartSec nowYear nowMonth :=
      ((completedMonths_mem st nowYear nowMonth ym).mp hym).2
    have hend := monthEnd_lt_of_start_lt hlt
    simp only [inMonthWindow, Bool.and_eq_true, decide_eq_true_eq, not_and]
    omega
  rcases pruneOldData_outcome st nowYear nowMonth fail with
    ⟨_, _, h3⟩ | ⟨_, _, h3⟩
  · rw [h3]
    exact List.mem_filter.mpr ⟨hu, by simp [hnot]⟩
  · rw [h3]
    exact hu

theorem pruneOldData_never_deletes_current_month_witness :
    (⟨1, "b1", 100, 1, witnessT⟩ : BucketUsage) ∈
      (pruneOldData witnessStoreAgg 1 2 none).2.bucketUsage :=
  pruneOldData_never_deletes_current_month witnessStoreAgg 1 2 none
    ⟨1, "b1", 100, 1, witnessT⟩ (by decide) (by decide)

theorem storeBucketUsage_getBucketUsage_roundTrip_witness :
    ∃ v ∈ getBucketUsage
        (storeBucketUsage ⟨[], [], 1⟩ ⟨0, "b", 7, 3, 10⟩) "b" 10 11,
      v.bucketName = "b" ∧ v.sizeBytes = 7 ∧
        v.objectCount = 3 ∧ v.timestamp = 10 :=
  storeBucketUsage_getBucketUsage_roundTrip ⟨[], [], 1⟩
    ⟨0, "b", 7, 3, 10⟩ 10 11 (by decide) (by decide)

/-- C1: under the table's unique-key constraint, a successful
`CalculateMonthlyAverages(year, month)` run leaves, for every bucket
with at least one sample in the UTC window from day 1 00:00:00 of the
month to its last second, exactly one `monthly_averages` row keyed
`(bucket, year, month)`, whose averages are the exact arithmetic means
of those samples' `size_bytes` and `object_count` and whose
`data_points` is their number (`aggRowOf` is that mean row); the rows
of a bucket with no sample in the window are untouched, the run
reports no error, and `bucket_usage` is unchanged. -/
theorem calculateMonthlyAverages_upserts_means (st : Store)
    (year month : Int) (hWF : Store.WFAgg st.monthlyAverages)
    (b : String) :
    ((∃ u ∈ st.bucketUsage, u.bucketName = b ∧
        monthStartSec year month ≤ u.timestamp ∧
          u.timestamp ≤ monthEndSec year month) →
      keyRows (calculateMonthlyAverages st year month none).2.monthlyAverages
          b year month =
        [aggRowOf st.bucketUsage b year month]) ∧
    ((¬ ∃ u ∈ st.bucketUsage, u.bucketName = b ∧
        monthStartSec year month ≤ u.timestamp ∧
          u.timestamp ≤ monthEndSec year month) →
      keyRows (calculateMonthlyAverages st year month none).2.monthlyAverages
          b year month =
        keyRows st.monthlyAverages b year month) ∧
    (calculateMonthlyAverages st year month none).1 = none ∧
    (calculateMonthlyAverages st year month none).2.bucketUsage =
      st.bucketUsage := by
  obtain ⟨hIn, hOut, hErr⟩ := calcLoop_success st.bucketUsage year month
    (distinctBuckets st.bucketUsage year month) 0 st.monthlyAverages
    (List.nodup_dedup _) hWF
  have hred :
      calculateMonthlyAverages st year month none =
        ((calcLoop st.bucketUsage year month none
            (distinctBuckets st.bucketUsage year month) 0
            st.monthlyAverages).1,
          { st with
            monthlyAverages := (calcLoop st.bucketUsage year month none
              (distinctBuckets st.bucketUsage year month) 0
              st.monthlyAverages).2 }) := by
    simp [calculateMonthlyAverages]
  refine ⟨?_, ?_, ?_, ?_⟩
  · intro hb
    rw [hred]
    exact hIn b ((mem_distinctBuckets st.bucketUsage year month b).mpr hb)
  · intro hb
    rw [hred]
    exact hOut b
      fun hc => hb ((mem_distinctBuckets st.bucketUsage year month b).mp hc)
  · rw [hred]
    exact hErr
  · rw [hred]

theorem calculateMonthlyAverages_upserts_means_witness :
    keyRows (calculateMonthlyAverages witnessStore 1 2
        none).2.monthlyAverages "b1" 1 2 =
      [aggRowOf witnessStore.bucketUsage "b1" 1 2] :=
  (calculateMonthlyAverages_upserts_means witnessStore 1 2
    (by decide) "b1").1 (by decide)

/-- C6 counterexample: `CalculateMonthlyAverages` runs without a
transaction.  On `witnessStore` (two buckets with February samples, no
aggregates) a failure of the second bucket's upsert returns an error,
yet the aggregate table is no longer what it was before the call: the
first bucket's upserted row persists. -/
theorem calculateMonthlyAverages_no_rollback_cex :
    (calculateMonthlyAverages witnessStore 1 2
        (some (.upsert 1))).1 ≠ none ∧
      (calculateMonthlyAverages witnessStore 1 2
        (some (.upsert 1))).2.monthlyAverages.length ≠
        witnessStore.monthlyAverages.length := by
  constructor <;> decide

/-- C6 amended: when `CalculateMonthlyAverages` returns an error it
aborts at the failing statement, but performs no rollback: the
aggregate table it leaves behind is the original with the upserts of
some prefix of the discovered buckets applied (possibly a non-empty
one), and the raw table is unchanged. -/
theorem calculateMonthlyAverages_error_keeps_done_upserts (st : Store)
    (year month : Int) (fail : Option CalcFail)
    (h : (calculateMonthlyAverages st year month fail).1 ≠ none) :
    ∃ k, (calculateMonthlyAverages st year month fail).2.monthlyAverages =
        applyAggRows st.bucketUsage year month st.monthlyAverages
          ((distinctBuckets st.bucketUsage year month).take k) ∧
      (calculateMonthlyAverages st year month fail).2.bucketUsage =
        st.bucketUsage := by
  by_cases hd : fail = some .discovery
  · exact ⟨0, by simp [calculateMonthlyAverages, hd, applyAggRows],
      by simp [calculateMonthlyAverages, hd]⟩
  · have h' : (calcLoop st.bucketUsage year month fail
        (distinctBuckets st.bucketUsage year month) 0
        st.monthlyAverages).1 ≠ none := by
      simpa [calculateMonthlyAverages, hd] using h
    obtain ⟨k, hk⟩ := calcLoop_err_take st.bucketUsage year month fail
      (distinctBuckets st.bucketUsage year month) 0 st.monthlyAverages h'
    exact ⟨k, by simp [calculateMonthlyAverages, hd, hk],
      by simp [calculateMonthlyAverages, hd]⟩

theorem calculateMonthlyAverages_error_keeps_done_upserts_witness :
    ∃ k, (calculateMonthlyAverages witnessStore 1 2
          (some (.upsert 1))).2.monthlyAverages =
        applyAggRows witnessStore.bucketUsage 1 2
          witnessStore.monthlyAverages
          ((distinctBuckets witnessStore.bucketUsage 1 2).take k) ∧
      (calculateMonthlyAverages witnessStore 1 2
          (some (.upsert 1))).2.bucketUsage =
        witnessStore.bucketUsage :=
  calculateMonthlyAverages_error_keeps_done_upserts witnessStore 1 2
    (some (.upsert 1)) (by decide)

end S3Usage
